import Mathlib

/-!
Shallow embedding of `StationNormals.py` (py-normals): the parser that loads
NOAA 1981-2010 climate-normals station `.txt` files into a metadata map and a
three-level `normals` structure Category → Frequency → Variable → values.

Python dicts are modelled as insertion-ordered association lists with unique
keys; mutation is explicit state passing; exceptions are `Except String`.
Regexes from the source are translated into direct character-list functions.
-/

set_option autoImplicit false
set_option linter.unusedVariables false

namespace PyNormals

/-- Python `\s` / `str.strip` whitespace, ASCII range (the input files are
ASCII text). -/
def isPySpace (c : Char) : Bool :=
  c = ' ' || c = '\t' || c = '\n' || c = '\r' || c = '\x0b' || c = '\x0c'

/-- `str.strip()` on a character list. -/
def pstripL (l : List Char) : List Char :=
  ((l.dropWhile isPySpace).reverse.dropWhile isPySpace).reverse

/-- `str.strip()`. -/
def pstrip (s : String) : String :=
  ⟨pstripL s.data⟩

/-- Helper for `splitWs`: collect maximal runs of non-whitespace characters.
`cur` is the (reversed) token being accumulated. -/
def fieldsAux : List Char → List Char → List String
  | [], cur => if cur = [] then [] else [⟨cur.reverse⟩]
  | c :: rest, cur =>
    if isPySpace c then
      if cur = [] then fieldsAux rest [] else ⟨cur.reverse⟩ :: fieldsAux rest []
    else fieldsAux rest (c :: cur)

/-- `re.split(r'\s+', s)`: split on maximal whitespace runs; a run touching
the start or the end of the string contributes an empty token on that side,
and the empty string splits to `[""]`, exactly as in Python. -/
def splitWs (s : String) : List String :=
  match s.data with
  | [] => [""]
  | c :: rest =>
    (if isPySpace c then [""] else []) ++ fieldsAux (c :: rest) []
      ++ (if isPySpace ((c :: rest).getLast (by simp)) then [""] else [])

/-- `re.match(r'^([a-zA-Z][^:]*):([^:]+)$', line)` followed by `.strip()` of
both groups: the line must start with an ASCII letter, contain exactly one
colon, and have a nonempty remainder after it. -/
def matchMeta (line : String) : Option (String × String) :=
  match line.data with
  | [] => none
  | c :: rest =>
    if c.isAlpha then
      let g1 := (c :: rest).takeWhile (fun x => x ≠ ':')
      match (c :: rest).dropWhile (fun x => x ≠ ':') with
      | ':' :: g2 =>
        if g2 ≠ [] ∧ g2.all (fun x => x ≠ ':') then
          some (⟨pstripL g1⟩, ⟨pstripL g2⟩)
        else none
      | _ => none
    else none

/-- `re.match(r'^(.*)\s+Normals\s*$', line)` followed by `.strip()` of the
group: after discarding trailing whitespace the line must end in `Normals`
preceded by at least one whitespace character; the group is everything before
that final `Normals`, stripped. -/
def matchCategory (line : String) : Option String :=
  let l := (line.data.reverse.dropWhile isPySpace).reverse
  let n := l.length
  if 8 ≤ n ∧ l.drop (n - 7) = "Normals".data ∧ isPySpace (l.getD (n - 8) 'x') then
    some ⟨pstripL (l.take (n - 7))⟩
  else none

/-- Python `\w` word character, ASCII range. -/
def isWordChar (c : Char) : Bool :=
  c.isAlphanum || c = '_'

/-- Search, from `fuel` downwards, for the largest end position `q` of a match
of `[A-Z]\S+ly\b` inside the first whitespace-free token `tok` (greedy `\S+`
with backtracking picks the largest such `q`): `q ≥ 4` (the leading capital,
at least one `\S`, then `ly`), `tok` has `l`,`y` at `q-2`,`q-1`, and position
`q` is a word boundary. -/
def findFreqEnd (tok : List Char) : Nat → Option Nat
  | 0 => none
  | e + 1 =>
    if 4 ≤ e + 1 ∧ e + 1 ≤ tok.length ∧ tok.getD (e - 1) 'x' = 'l' ∧
        tok.getD e 'x' = 'y' ∧ (e + 1 = tok.length ∨ ¬ isWordChar (tok.getD (e + 1) 'x')) then
      some (e + 1)
    else findFreqEnd tok e

/-- `re.match(r'^([A-Z]\S+ly)\b', line)`: the line starts with a capital
letter; the group is the longest prefix of the first token that ends in `ly`
at a word boundary and has length at least 4. -/
def matchFrequency (line : String) : Option String :=
  match line.data with
  | [] => none
  | c :: rest =>
    if 'A' ≤ c ∧ c ≤ 'Z' then
      let tok := c :: rest.takeWhile (fun x => ¬ isPySpace x)
      match findFreqEnd tok tok.length with
      | some e => some ⟨tok.take e⟩
      | none => none
    else none

/-- The fixed month-abbreviation table `StationNormals.months`. -/
def months : List String :=
  ["JAN", "FEB", "MAR", "APR", "MAY", "JUN", "JUL", "AUG", "SEP", "OCT", "NOV", "DEC"]

/-- Helper for `month_index`: linear scan carrying the current index. -/
def monthIndexAux (month : String) : List String → Int → Int
  | [], _ => -1
  | m :: rest, i => if m = month then i else monthIndexAux month rest (i + 1)

/-- `StationNormals.month_index`: index of `month` in `months`, `-1` when
absent. -/
def month_index (month : String) : Int :=
  monthIndexAux month months 0

/-- `StationNormals.trim_from_end`: pop elements from the end while they equal
`value`. -/
def trim_from_end {α : Type} [DecidableEq α] (array : List α) (value : α) : List α :=
  (array.reverse.dropWhile (fun x => x = value)).reverse

/-- All-digit, nonempty character list to its decimal value. -/
def digitsToNat (l : List Char) : Option Nat :=
  if l ≠ [] ∧ l.all Char.isDigit then
    some (l.foldl (fun acc c => acc * 10 + (c.toNat - '0'.toNat)) 0)
  else none

/-- Python `int(s)` for the tokens of these files: surrounding whitespace is
ignored, an optional single `+`/`-` sign precedes a nonempty run of ASCII
decimal digits. -/
def parsePyInt (s : String) : Option Int :=
  match pstripL s.data with
  | '-' :: ds => (digitsToNat ds).map (fun n => -(n : Int))
  | '+' :: ds => (digitsToNat ds).map (fun n => (n : Int))
  | ds => (digitsToNat ds).map (fun n => (n : Int))

/-- `re.sub(r'[A-Z]$', '', val)`: drop one trailing ASCII uppercase letter if
present. -/
def subUpperEnd (val : String) : String :=
  match val.data.getLast? with
  | some c => if c.isUpper then ⟨val.data.dropLast⟩ else val
  | none => val

/-- `int(s)` as a fallible computation (Python raises `ValueError` on a
non-numeric literal; the quotation marks of the Python message are elided). -/
def intE (s : String) : Except String Int :=
  match parsePyInt s with
  | some n => .ok n
  | none => .error ("invalid literal for int() with base 10: " ++ s)

/-- `int(re.sub(r'[A-Z]$', '', val))`: one data token to an integer. -/
def toIntTok (val : String) : Except String Int :=
  intE (subUpperEnd val)

/-- `StationNormals.transform_data` (the `type` argument is unused in the
source but kept): convert every token, failing at the first bad one as the
Python list comprehension does. -/
def transform_data (ty : String) (values : List String) : Except String (List Int) :=
  values.mapM toIntTok

/-- A value stored under a variable name: a 12-slot array of day lists (under
`Daily`) or a flat list of monthly values (under `Monthly`). The Python dict
holds these untagged; the two shapes are written under the distinct frequency
keys `"Daily"` and `"Monthly"` respectively. -/
inductive NVal where
  | dailyArr : List (List Int) → NVal
  | monthlyRow : List Int → NVal
deriving DecidableEq

abbrev VarMap := List (String × NVal)
abbrev FreqMap := List (String × VarMap)
abbrev Normals := List (String × FreqMap)

/-- First-match lookup in an association list (keys are unique by
construction, as in a Python dict). -/
def alookup {α : Type} : List (String × α) → String → Option α
  | [], _ => none
  | (k, v) :: rest, key => if k = key then some v else alookup rest key

/-- `d[key] = val` on a Python dict: replace the existing entry, else append
(insertion order preserved). -/
def aset {α : Type} : List (String × α) → String → α → List (String × α)
  | [], key, val => [(key, val)]
  | (k, v) :: rest, key, val =>
    if k = key then (k, val) :: rest else (k, v) :: aset rest key val

/-- `d[key]` on a Python dict: `KeyError` when absent. -/
def getE {α : Type} (m : List (String × α)) (key : String) : Except String α :=
  match alookup m key with
  | some v => .ok v
  | none => .error ("KeyError: " ++ key)

/-- The parser's state: the `meta` and `normals` dicts of the
`StationNormals` object plus the loop-local context variables `type`,
`frequency`, `variable` of `loadfromfile` (`none` models Python `None`). -/
structure ParseState where
  meta : List (String × String)
  normals : Normals
  type' : Option String
  frequency : Option String
  variable' : Option String
deriving DecidableEq

def initState : ParseState :=
  { meta := [], normals := [], type' := none, frequency := none, variable' := none }

/-- The body of the first `if` of the `Daily` branch: `variable =
columns.pop(0)` plus registration of a fresh `[[]]*12` array when the
variable is new (`self.normals[type][frequency]` is looked up with the
current frequency value, `"Daily"` in this branch). -/
def registerDaily (st : ParseState) (ty v : String) : Except String ParseState :=
  match getE st.normals ty with
  | .error e => .error e
  | .ok fm =>
    match getE fm "Daily" with
    | .error e => .error e
    | .ok vm =>
      let vm' := if (alookup vm v).isSome then vm
                 else aset vm v (NVal.dailyArr (List.replicate 12 []))
      .ok { st with variable' := some v,
                    normals := aset st.normals ty (aset fm "Daily" vm') }

/-- The body of the second `if` of the `Daily` branch:
`self.normals[type][frequency][variable][i] = transform_data(type,
trim_from_end(columns, '-8888'))`. Python evaluates the right-hand side
first, then the target's getitem chain, then the item assignment. -/
def storeDaily (st : ParseState) (ty month : String) (rest : List String) :
    Except String ParseState :=
  let i := month_index month
  if i < 0 ∨ 12 ≤ i then .error ("unknown month: " ++ month)
  else
    match transform_data ty (trim_from_end rest "-8888") with
    | .error e => .error e
    | .ok vals =>
      match getE st.normals ty with
      | .error e => .error e
      | .ok fm =>
        match getE fm "Daily" with
        | .error e => .error e
        | .ok vm =>
          match st.variable' with
          | none => .error "KeyError: None"
          | some v =>
            match getE vm v with
            | .error e => .error e
            | .ok (NVal.monthlyRow _) =>
              -- unreachable: values under the "Daily" key are always dailyArr
              .error "TypeError: flat list under Daily"
            | .ok (NVal.dailyArr arr) =>
              if i.toNat < arr.length then
                let vm' := aset vm v (NVal.dailyArr (arr.set i.toNat vals))
                .ok { st with normals := aset st.normals ty (aset fm "Daily" vm') }
              else .error "IndexError: list assignment index out of range"

/-- Second `if` of the `Daily` block, on the (possibly already popped) column
list: a 32-token list led by a recognized month stores month data. -/
def dailySecond : ParseState → String → List String → Except String ParseState
  | st1, _, [] => .ok st1
  | st1, ty, month :: rest =>
    if (month :: rest).length = 32 ∧ (month :: rest).getD 0 "" ∈ months then
      storeDaily st1 ty month rest
    else .ok st1

/-- The `if frequency == 'Daily'` block of `loadfromfile` on the column list
`columns = re.split(r'\s+', line)`: the 33-token new-variable `if` (popping
the variable name), then the 32-token month-data `if` on the possibly popped
column list. The two `if`s are sequential, not exclusive: a 33-token row
falls through to the second after its variable name is popped. -/
def dailyStepCols : ParseState → String → List String → Except String ParseState
  | st, ty, [] => dailySecond st ty []
  | st, ty, v :: restCols =>
    if (v :: restCols).length = 33 ∧ (v :: restCols).getD 1 "" ∈ months then
      match registerDaily st ty v with
      | .error e => .error e
      | .ok st1 => dailySecond st1 ty restCols
    else dailySecond st ty (v :: restCols)

def dailyStep (st : ParseState) (ty : String) (line : String) : Except String ParseState :=
  dailyStepCols st ty (splitWs line)

/-- The `if frequency == 'Monthly'` block of `loadfromfile` on the column
list: a 13-token row sets `variable` to its first token and stores the 12
remaining tokens, sentinel-trimmed and flag-stripped, as the variable's value
(`self.normals[type][frequency][variable] = ...`, right-hand side evaluated
first, then the getitem chain). -/
def monthlyStepCols : ParseState → String → List String → Except String ParseState
  | st, _, [] => .ok st
  | st, ty, v :: rest =>
    if (v :: rest).length = 13 then
      match transform_data ty (trim_from_end rest "-8888") with
      | .error e => .error e
      | .ok vals =>
        match getE st.normals ty with
        | .error e => .error e
        | .ok fm =>
          match getE fm "Monthly" with
          | .error e => .error e
          | .ok vm =>
            let vm' := aset vm v (NVal.monthlyRow vals)
            .ok { st with variable' := some v,
                          normals := aset st.normals ty (aset fm "Monthly" vm') }
    else .ok st

def monthlyStep (st : ParseState) (ty : String) (line : String) : Except String ParseState :=
  monthlyStepCols st ty (splitWs line)

/-- One iteration of the `loadfromfile` loop on an already-stripped line:
metadata match, else category-header match, else frequency-header match
(fatal when no category is active), else — with an active category — the
`Daily` and `Monthly` data-row blocks. -/
def processLine (st : ParseState) (line : String) : Except String ParseState :=
  match matchMeta line with
  | some (key, val) => .ok { st with meta := aset st.meta key val }
  | none =>
  match matchCategory line with
  | some ty =>
    .ok { st with type' := some ty,
                  normals := if (alookup st.normals ty).isSome then st.normals
                             else aset st.normals ty [] }
  | none =>
  match matchFrequency line with
  | some fr =>
    match st.type' with
    | none =>
      -- Python: raise Exception("encountered new frequency '%s' not in any
      -- normals type" % frequency); the quotation marks are elided here
      .error ("encountered new frequency " ++ fr ++ " not in any normals type")
    | some ty =>
      match getE st.normals ty with
      | .error e => .error e
      | .ok fm =>
        let fm' := if (alookup fm fr).isSome then fm else aset fm fr []
        .ok { st with frequency := some fr, normals := aset st.normals ty fm' }
  | none =>
  match st.type' with
  | none => .ok st
  | some ty =>
    if st.frequency = some "Daily" then dailyStep st ty line
    else if st.frequency = some "Monthly" then monthlyStep st ty line
    else .ok st

/-- The `loadfromfile` loop from a given state: each raw line is stripped and
fed to `processLine`; an error aborts the whole parse. -/
def runLines (st : ParseState) (lines : List String) : Except String ParseState :=
  (lines.map pstrip).foldlM processLine st

/-- `StationNormals.loadfromfile` on the file's line list (the `open`/stream
plumbing is the external collaborator). -/
def loadfromfile (lines : List String) : Except String ParseState :=
  runLines initState lines

/-! ## Helper lemmas about the association-list operations -/

theorem alookup_aset {α : Type} (m : List (String × α)) (k k' : String) (v : α) :
    alookup (aset m k v) k' = if k' = k then some v else alookup m k' := by
  induction m with
  | nil =>
    by_cases h : k' = k <;>
      simp_all [aset, alookup, eq_comm (a := k) (b := k')]
  | cons p rest ih =>
    obtain ⟨pk, pv⟩ := p
    by_cases hpk : pk = k <;> by_cases h : k' = k <;> by_cases hp : pk = k' <;>
      simp_all [aset, alookup]

theorem aset_of_alookup_eq {α : Type} (m : List (String × α)) (k : String) (v : α)
    (h : alookup m k = some v) : aset m k v = m := by
  induction m with
  | nil => simp [alookup] at h
  | cons p rest ih =>
    obtain ⟨pk, pv⟩ := p
    by_cases hpk : pk = k
    · subst hpk
      simp [alookup] at h
      simp [aset, h]
    · simp [alookup, hpk] at h
      simp [aset, hpk, ih h]

theorem aset_aset {α : Type} (m : List (String × α)) (k : String) (a b : α) :
    aset (aset m k a) k b = aset m k b := by
  induction m with
  | nil => simp [aset]
  | cons p rest ih =>
    obtain ⟨pk, pv⟩ := p
    by_cases hpk : pk = k <;> simp [aset, hpk, ih]

/-! ## Helper lemmas about months -/

theorem month_index_of_mem (month : String) (hm : month ∈ months) :
    0 ≤ month_index month ∧ month_index month < 12 := by
  simp only [months, List.mem_cons, List.not_mem_nil, or_false] at hm
  rcases hm with rfl | rfl | rfl | rfl | rfl | rfl | rfl | rfl | rfl | rfl | rfl | rfl <;> decide

theorem month_index_toNat_lt (month : String) (hm : month ∈ months) :
    (month_index month).toNat < 12 := by
  simp only [months, List.mem_cons, List.not_mem_nil, or_false] at hm
  rcases hm with rfl | rfl | rfl | rfl | rfl | rfl | rfl | rfl | rfl | rfl | rfl | rfl <;> decide

/-! ## Helper lemmas about sentinel trimming -/

theorem trim_from_end_eq_rdropWhile {α : Type} [DecidableEq α] (l : List α) (v : α) :
    trim_from_end l v = List.rdropWhile (fun x => x = v) l := rfl

theorem trim_from_end_append_replicate {α : Type} [DecidableEq α] (l : List α) (v : α) :
    ∃ k : Nat, l = trim_from_end l v ++ List.replicate k v := by
  refine ⟨(List.rtakeWhile (fun x => x = v) l).length, ?_⟩
  rw [trim_from_end_eq_rdropWhile]
  have hsplit : l = List.rdropWhile (fun x => x = v) l ++ List.rtakeWhile (fun x => x = v) l := by
    conv_lhs => rw [← l.reverse_reverse,
      ← List.takeWhile_append_dropWhile (p := fun x => x = v) (l := l.reverse)]
    rw [List.reverse_append]
    rfl
  have hrep : List.rtakeWhile (fun x => x = v) l
      = List.replicate (List.rtakeWhile (fun x => x = v) l).length v :=
    List.eq_replicate_length.mpr (fun b hb => by
      have := List.mem_rtakeWhile_imp hb
      exact of_decide_eq_true this)
  rw [← hrep]
  exact hsplit

theorem trim_from_end_getLast_ne {α : Type} [DecidableEq α] (l : List α) (v : α) :
    (trim_from_end l v).getLast? ≠ some v := by
  rw [trim_from_end_eq_rdropWhile]
  rcases h : List.rdropWhile (fun x => x = v) l with _ | ⟨a, r⟩
  · simp
  · have hne : List.rdropWhile (fun x => x = v) l ≠ [] := by simp [h]
    have := List.rdropWhile_last_not (fun x => x = v) l hne
    rw [List.getLast?_eq_getLast _ (by simp [h])]
    intro hc
    apply this
    simp only [← h] at hc ⊢
    have : (List.rdropWhile (fun x => decide (x = v)) l).getLast (by simp [h]) = v := by
      injection hc
    simp [this]

/-! ## Reduction lemmas for `Except` and `runLines` -/

@[simp]
theorem exceptBind_error {ε α β : Type} (e : ε) (f : α → Except ε β) :
    (Except.error e >>= f) = (Except.error e : Except ε β) := rfl

@[simp]
theorem exceptBind_ok {ε α β : Type} (a : α) (f : α → Except ε β) :
    (Except.ok a >>= f) = f a := rfl

theorem runLines_cons (st : ParseState) (l : String) (rest : List String) :
    runLines st (l :: rest)
      = (processLine st (pstrip l) >>= fun st' => runLines st' rest) := by
  cases h : processLine st (pstrip l) <;>
    simp [runLines, List.foldlM_cons, h]

theorem runLines_nil (st : ParseState) : runLines st [] = .ok st := rfl

/-! ## Branch-reduction lemmas for `processLine` -/

theorem processLine_data (st : ParseState) (ty line : String)
    (hmeta : matchMeta line = none) (hcat : matchCategory line = none)
    (hfreq : matchFrequency line = none) (hty : st.type' = some ty) :
    processLine st line
      = (if st.frequency = some "Daily" then dailyStep st ty line
         else if st.frequency = some "Monthly" then monthlyStep st ty line
         else .ok st) := by
  simp [processLine, hmeta, hcat, hfreq, hty]

theorem processLine_daily (st : ParseState) (ty line : String)
    (hmeta : matchMeta line = none) (hcat : matchCategory line = none)
    (hfreq : matchFrequency line = none) (hty : st.type' = some ty)
    (hfr : st.frequency = some "Daily") :
    processLine st line = dailyStep st ty line := by
  rw [processLine_data st ty line hmeta hcat hfreq hty, if_pos hfr]

theorem processLine_monthly (st : ParseState) (ty line : String)
    (hmeta : matchMeta line = none) (hcat : matchCategory line = none)
    (hfreq : matchFrequency line = none) (hty : st.type' = some ty)
    (hfr : st.frequency = some "Monthly") :
    processLine st line = monthlyStep st ty line := by
  rw [processLine_data st ty line hmeta hcat hfreq hty, if_neg (by simp [hfr]), if_pos hfr]

theorem dailyStep_32 (st : ParseState) (ty line month : String) (rest : List String)
    (hsplit : splitWs line = month :: rest) (hlen : rest.length = 31)
    (hm : month ∈ months) :
    dailyStep st ty line = storeDaily st ty month rest := by
  simp [dailyStep, dailyStepCols, dailySecond, hsplit, hlen, hm]

theorem dailyStep_33 (st st' : ParseState) (ty line v month : String) (vals : List String)
    (hsplit : splitWs line = v :: month :: vals) (hlen : vals.length = 31)
    (hm : month ∈ months)
    (hreg : registerDaily st ty v = .ok st') :
    dailyStep st ty line = storeDaily st' ty month vals := by
  simp [dailyStep, dailyStepCols, dailySecond, hsplit, hlen, hm, hreg]

theorem registerDaily_new (st : ParseState) (ty v : String) (fm : FreqMap) (vm : VarMap)
    (hfm : alookup st.normals ty = some fm) (hvm : alookup fm "Daily" = some vm)
    (hnew : alookup vm v = none) :
    registerDaily st ty v
      = .ok { st with variable' := some v,
                      normals := aset st.normals ty (aset fm "Daily"
                        (aset vm v (NVal.dailyArr (List.replicate 12 [])))) } := by
  simp [registerDaily, getE, hfm, hvm, hnew]

theorem registerDaily_existing (st : ParseState) (ty v : String) (fm : FreqMap) (vm : VarMap)
    (w : NVal)
    (hfm : alookup st.normals ty = some fm) (hvm : alookup fm "Daily" = some vm)
    (hold : alookup vm v = some w) :
    registerDaily st ty v
      = .ok { st with variable' := some v,
                      normals := aset st.normals ty (aset fm "Daily" vm) } := by
  simp [registerDaily, getE, hfm, hvm, hold]

theorem storeDaily_ok (st : ParseState) (ty month v : String) (rest : List String)
    (fm : FreqMap) (vm : VarMap) (arr : List (List Int)) (ys : List Int)
    (hm : month ∈ months)
    (hys : transform_data ty (trim_from_end rest "-8888") = .ok ys)
    (hfm : alookup st.normals ty = some fm)
    (hvm : alookup fm "Daily" = some vm)
    (hv : st.variable' = some v)
    (harr : alookup vm v = some (NVal.dailyArr arr))
    (hlen : arr.length = 12) :
    storeDaily st ty month rest
      = .ok { st with normals := aset st.normals ty (aset fm "Daily"
          (aset vm v (NVal.dailyArr (arr.set (month_index month).toNat ys)))) } := by
  obtain ⟨h0, h12⟩ := month_index_of_mem month hm
  have hcond : ¬ (month_index month < 0 ∨ 12 ≤ month_index month) := by omega
  have htn := month_index_toNat_lt month hm
  simp [storeDaily, hcond, hys, getE, hfm, hvm, hv, harr, hlen, htn]

theorem monthlyStep_13 (st : ParseState) (ty line v : String) (rest : List String)
    (fm : FreqMap) (vm : VarMap) (ys : List Int)
    (hsplit : splitWs line = v :: rest) (hlen : rest.length = 12)
    (hys : transform_data ty (trim_from_end rest "-8888") = .ok ys)
    (hfm : alookup st.normals ty = some fm)
    (hvm : alookup fm "Monthly" = some vm) :
    monthlyStep st ty line
      = .ok { st with variable' := some v,
                      normals := aset st.normals ty (aset fm "Monthly"
                        (aset vm v (NVal.monthlyRow ys))) } := by
  simp [monthlyStep, monthlyStepCols, hsplit, hlen, hys, getE, hfm, hvm]

/-! ## Claim theorems -/

/-- C7: for every token list, sentinel trimming removes exactly the maximal
trailing contiguous run of tokens equal to `"-8888"` (possibly zero tokens)
and preserves all interior sentinels: the result is a prefix of the input
whose removed suffix is a run of the sentinel, and the result does not end in
the sentinel; the list `[10, -8888, 20, -8888, -8888]` trims to
`[10, -8888, 20]`. -/
theorem C7_sentinel_trimming :
    trim_from_end ["10", "-8888", "20", "-8888", "-8888"] "-8888" = ["10", "-8888", "20"]
    ∧ ∀ (l : List String) (v : String),
        (∃ k : Nat, l = trim_from_end l v ++ List.replicate k v)
        ∧ (trim_from_end l v).getLast? ≠ some v :=
  ⟨by decide, fun l v => ⟨trim_from_end_append_replicate l v, trim_from_end_getLast_ne l v⟩⟩

/-- Safety witness for C7 at a concrete input. -/
theorem C7_witness :
    (∃ k : Nat, (["a", "-8888"] : List String)
        = trim_from_end ["a", "-8888"] "-8888" ++ List.replicate k "-8888")
    ∧ (trim_from_end (["a", "-8888"] : List String) "-8888").getLast? ≠ some "-8888" :=
  C7_sentinel_trimming.2 ["a", "-8888"] "-8888"

/-- C6: flag stripping removes at most one trailing uppercase letter and
parses the remainder as a base-10 integer, failing when the remainder is not
numeric; the tokens `"630S"`, `"631R"`, `"633"` parse to `630`, `631`,
`633`. -/
theorem C6_flag_stripping :
    toIntTok "630S" = .ok 630 ∧ toIntTok "631R" = .ok 631 ∧ toIntTok "633" = .ok 633
    ∧ (∀ (s : String) (c : Char), c.isUpper = true → toIntTok ⟨s.data ++ [c]⟩ = intE s)
    ∧ (∀ s : String, (∀ c, s.data.getLast? = some c → c.isUpper = false) → toIntTok s = intE s)
    ∧ (∀ s : String, parsePyInt s = none →
        intE s = .error ("invalid literal for int() with base 10: " ++ s)) := by
  refine ⟨rfl, rfl, rfl, ?_, ?_, ?_⟩
  · intro s c hc
    have hlast : (s.data ++ [c]).getLast? = some c := by
      simp [List.getLast?_concat]
    simp only [toIntTok, subUpperEnd, hlast, hc, if_true]
    have : (⟨s.data ++ [c]⟩ : String).data.dropLast = s.data := by
      simp [List.dropLast_concat]
    rw [this]
  · intro s hs
    rcases h : s.data.getLast? with _ | c
    · simp [toIntTok, subUpperEnd, h]
    · simp [toIntTok, subUpperEnd, h, hs c h]
  · intro s h
    simp [intE, h]

/-- Safety witness for C6 at concrete inputs. -/
theorem C6_witness :
    ('S' : Char).isUpper = true
    ∧ toIntTok ⟨"630".data ++ ['S']⟩ = intE "630"
    ∧ toIntTok "633" = intE "633"
    ∧ intE "63x" = .error ("invalid literal for int() with base 10: " ++ "63x") :=
  ⟨by decide, C6_flag_stripping.2.2.2.1 "630" 'S' (by decide),
   C6_flag_stripping.2.2.2.2.1 "633" (by decide),
   C6_flag_stripping.2.2.2.2.2 "63x" (by decide)⟩

/-- Observation helper: the day list stored at month slot `i` of daily
variable `v` under category `cat`, when the parse succeeded and the slot
exists. -/
def getDailySlot (r : Except String ParseState) (cat v : String) (i : Nat) :
    Option (List Int) :=
  match r with
  | .error _ => none
  | .ok st =>
    match alookup st.normals cat with
    | none => none
    | some fm =>
      match alookup fm "Daily" with
      | none => none
      | some vm =>
        match alookup vm v with
        | some (NVal.dailyArr arr) => arr[i]?
        | _ => none

/-- Observation helper: the monthly value list of variable `v` under category
`cat`. -/
def getMonthlyVals (r : Except String ParseState) (cat v : String) : Option (List Int) :=
  match r with
  | .error _ => none
  | .ok st =>
    match alookup st.normals cat with
    | none => none
    | some fm =>
      match alookup fm "Monthly" with
      | none => none
      | some vm =>
        match alookup vm v with
        | some (NVal.monthlyRow vals) => some vals
        | _ => none

/-- Observation helper: the variable map under `(cat, fr)`. -/
def getFreqMap (r : Except String ParseState) (cat fr : String) : Option VarMap :=
  match r with
  | .error _ => none
  | .ok st =>
    match alookup st.normals cat with
    | none => none
    | some fm => alookup fm fr

/-- Observation helper: did the parse succeed? -/
def isOkE (r : Except String ParseState) : Bool :=
  match r with
  | .ok _ => true
  | .error _ => false

/-- `getD` of a 12-slot all-empty array is `[]` at every index. -/
theorem replicate_nil_getD (n j : Nat) : (List.replicate n ([] : List Int)).getD j [] = [] := by
  rw [List.getD_eq_getElem?_getD, List.getElem?_replicate]
  split <;> rfl

/-- C4: whenever a frequency-header line (recognized after the metadata and
category checks) is processed while no Category is active, the parse aborts
with the fatal `encountered new frequency` error; the remaining lines are
never processed (the result does not depend on them). -/
theorem C4_freq_without_category (st : ParseState) (l fr : String) (rest : List String)
    (hty : st.type' = none)
    (hmeta : matchMeta (pstrip l) = none)
    (hcat : matchCategory (pstrip l) = none)
    (hfreq : matchFrequency (pstrip l) = some fr) :
    runLines st (l :: rest)
      = .error ("encountered new frequency " ++ fr ++ " not in any normals type") := by
  have hstep : processLine st (pstrip l)
      = .error ("encountered new frequency " ++ fr ++ " not in any normals type") := by
    simp [processLine, hmeta, hcat, hfreq, hty]
  simp [runLines_cons, hstep]

/-- Witness for C4: the file that opens with a bare `Monthly` header. -/
theorem C4_witness :
    initState.type' = none
    ∧ runLines initState ["Monthly", "x:y"]
        = .error ("encountered new frequency " ++ "Monthly" ++ " not in any normals type") :=
  ⟨rfl, C4_freq_without_category initState "Monthly" "Monthly" ["x:y"] rfl rfl rfl rfl⟩

/-! Concrete rows and states used by witnesses and counterexamples. -/

def wAnnRow : String := "v JAN " ++ String.intercalate " " (List.replicate 31 "1")

def wAnnRow2 : String := "v JAN " ++ String.intercalate " " (List.replicate 31 "2")

def wFebRow : String := "FEB " ++ String.intercalate " " (List.replicate 31 "1")

def wBadRow : String := "FOO " ++ String.intercalate " " (List.replicate 31 "1")

def wMonRow : String := "mv 1 2 3 4 5 6 7 8 9 10 11 -8888"

def wVm5 : VarMap := [("v", NVal.dailyArr (List.replicate 12 []))]

def wFm5 : FreqMap := [("Daily", wVm5)]

def wSt5 : ParseState :=
  { meta := [], normals := [("A", wFm5)], type' := some "A",
    frequency := some "Daily", variable' := some "v" }

def wSt1 : ParseState :=
  { meta := [], normals := [("A", [("Daily", [])])], type' := some "A",
    frequency := some "Daily", variable' := none }

/-- C5: a 32-token daily row whose first token is a recognized month, under an
active category, frequency `Daily` and an established variable, stores the
31 remaining tokens — sentinel-trimmed from the end, flag-stripped and
converted to integers — at the month's zero-based index of the variable's
12-slot array, and every other slot is unchanged. -/
theorem C5_daily_month_placement
    (st : ParseState) (line ty v month : String) (rest : List String)
    (fm : FreqMap) (vm : VarMap) (arr : List (List Int)) (ys : List Int)
    (hmeta : matchMeta line = none) (hcat : matchCategory line = none)
    (hfreq : matchFrequency line = none)
    (hty : st.type' = some ty) (hfr : st.frequency = some "Daily")
    (hsplit : splitWs line = month :: rest) (hm : month ∈ months)
    (hlen : rest.length = 31)
    (hfm : alookup st.normals ty = some fm)
    (hvm : alookup fm "Daily" = some vm)
    (hv : st.variable' = some v)
    (harr : alookup vm v = some (NVal.dailyArr arr))
    (halen : arr.length = 12)
    (hys : transform_data ty (trim_from_end rest "-8888") = .ok ys) :
    processLine st line
      = .ok { st with normals := aset st.normals ty (aset fm "Daily"
          (aset vm v (NVal.dailyArr (arr.set (month_index month).toNat ys)))) }
    ∧ (arr.set (month_index month).toNat ys).getD (month_index month).toNat [] = ys
    ∧ ∀ j : Nat, j ≠ (month_index month).toNat →
        (arr.set (month_index month).toNat ys).getD j [] = arr.getD j [] := by
  have htn : (month_index month).toNat < arr.length := by
    rw [halen]; exact month_index_toNat_lt month hm
  refine ⟨?_, ?_, ?_⟩
  · rw [processLine_daily st ty line hmeta hcat hfreq hty hfr,
      dailyStep_32 st ty line month rest hsplit hlen hm,
      storeDaily_ok st ty month v rest fm vm arr ys hm hys hfm hvm hv harr halen]
  · rw [List.getD_eq_getElem?_getD, List.getElem?_set_eq_of_lt _ htn]; rfl
  · intro j hj
    rw [List.getD_eq_getElem?_getD, List.getElem?_set_ne (Ne.symm hj),
      ← List.getD_eq_getElem?_getD]

/-- Witness for C5: a `FEB` row of 31 ones lands in slot 1 of the pre-registered
variable of `wSt5`. -/
theorem C5_witness :
    ("FEB" ∈ months)
    ∧ processLine wSt5 wFebRow
      = .ok { wSt5 with normals := aset wSt5.normals "A" (aset wFm5 "Daily"
          (aset wVm5 "v" (NVal.dailyArr ((List.replicate 12 ([] : List Int)).set
            (month_index "FEB").toNat (List.replicate 31 (1 : Int)))))) } :=
  ⟨by decide,
    (C5_daily_month_placement wSt5 wFebRow "A" "v" "FEB" (List.replicate 31 "1")
      wFm5 wVm5 (List.replicate 12 []) (List.replicate 31 (1 : Int))
      rfl rfl rfl rfl rfl (by rfl) (by decide) (by rfl) rfl rfl rfl rfl rfl
      (by rfl)).1⟩

/-- C1 claimed that a 33-token daily announcement row only registers the
variable with 12 empty slots and that its 32 remaining tokens are never
stored.  In the code the second `if` is not an `elif`: after the variable
name is popped the remaining 32 tokens match the month-data shape and ARE
stored — here slot 0 (January) ends up holding the row's 31 values instead
of staying empty. -/
theorem C1_cex :
    getDailySlot (loadfromfile ["A Normals", "Daily", wAnnRow]) "A" "v" 0
      = some (List.replicate 31 (1 : Int))
    ∧ some (List.replicate 31 (1 : Int)) ≠ some ([] : List Int) :=
  ⟨by rfl, by decide⟩

/-- C1 (amended): a 33-token daily row whose second token is a recognized
month registers the first token as a new variable with a fresh 12-slot array,
but classification does not stop: the remaining 32 tokens are then consumed
as a month-data row, so the row's 31 values are stored at the named month's
index and only the other 11 slots stay empty. -/
theorem C1_amended
    (st : ParseState) (line ty v month : String) (vals : List String)
    (fm : FreqMap) (vm : VarMap) (ys : List Int)
    (hmeta : matchMeta line = none) (hcat : matchCategory line = none)
    (hfreq : matchFrequency line = none)
    (hty : st.type' = some ty) (hfr : st.frequency = some "Daily")
    (hsplit : splitWs line = v :: month :: vals) (hm : month ∈ months)
    (hvlen : vals.length = 31)
    (hfm : alookup st.normals ty = some fm)
    (hvm : alookup fm "Daily" = some vm)
    (hnew : alookup vm v = none)
    (hys : transform_data ty (trim_from_end vals "-8888") = .ok ys) :
    processLine st line
      = .ok { st with
              variable' := some v,
              normals := aset st.normals ty (aset fm "Daily"
                (aset vm v (NVal.dailyArr ((List.replicate 12 ([] : List Int)).set
                  (month_index month).toNat ys)))) }
    ∧ ((List.replicate 12 ([] : List Int)).set (month_index month).toNat ys).getD
        (month_index month).toNat [] = ys
    ∧ ∀ j : Nat, j ≠ (month_index month).toNat →
        ((List.replicate 12 ([] : List Int)).set (month_index month).toNat ys).getD j []
          = [] := by
  have hreg := registerDaily_new st ty v fm vm hfm hvm hnew
  have htn : (month_index month).toNat < (List.replicate 12 ([] : List Int)).length := by
    simpa using month_index_toNat_lt month hm
  refine ⟨?_, ?_, ?_⟩
  · rw [processLine_daily st ty line hmeta hcat hfreq hty hfr,
      dailyStep_33 st _ ty line v month vals hsplit hvlen hm hreg]
    have hfm' : alookup (aset st.normals ty (aset fm "Daily"
        (aset vm v (NVal.dailyArr (List.replicate 12 []))))) ty
        = some (aset fm "Daily" (aset vm v (NVal.dailyArr (List.replicate 12 [])))) := by
      rw [alookup_aset]; simp
    have hvm' : alookup (aset fm "Daily" (aset vm v (NVal.dailyArr (List.replicate 12 []))))
        "Daily" = some (aset vm v (NVal.dailyArr (List.replicate 12 []))) := by
      rw [alookup_aset]; simp
    have harr' : alookup (aset vm v (NVal.dailyArr (List.replicate 12 []))) v
        = some (NVal.dailyArr (List.replicate 12 [])) := by
      rw [alookup_aset]; simp
    rw [storeDaily_ok { meta := st.meta, normals := aset st.normals ty (aset fm "Daily" (aset vm v (NVal.dailyArr (List.replicate 12 [])))), type' := st.type', frequency := st.frequency, variable' := some v } ty month v vals _ _ (List.replicate 12 []) ys hm hys hfm' hvm' rfl harr' (by simp)]
    simp [aset_aset]
  · rw [List.getD_eq_getElem?_getD, List.getElem?_set_eq_of_lt _ htn]; rfl
  · intro j hj
    rw [List.getD_eq_getElem?_getD, List.getElem?_set_ne (Ne.symm hj),
      ← List.getD_eq_getElem?_getD, replicate_nil_getD]

/-- Witness for C1 (amended): the announcement row of `wAnnRow` under a fresh
`Daily` map registers `v` and stores January. -/
theorem C1_amended_witness :
    ("JAN" ∈ months)
    ∧ processLine wSt1 wAnnRow
      = .ok { wSt1 with
              variable' := some "v",
              normals := aset wSt1.normals "A" (aset [("Daily", [])] "Daily"
                (aset [] "v" (NVal.dailyArr ((List.replicate 12 ([] : List Int)).set
                  (month_index "JAN").toNat (List.replicate 31 (1 : Int)))))) } :=
  ⟨by decide,
    (C1_amended wSt1 wAnnRow "A" "v" "JAN"
      (List.replicate 31 "1") [("Daily", [])] [] (List.replicate 31 (1 : Int))
      rfl rfl rfl rfl rfl (by rfl) (by decide) (by rfl) rfl rfl rfl (by rfl)).1⟩

/-- C2 claimed monthly rows are stored with exactly 12 integers even when the
row's trailing tokens are the sentinel `-8888`.  In the code the `Monthly`
branch applies `trim_from_end(columns, '-8888')` exactly as the daily branch
does, so a 13-token row ending in the sentinel stores only 11 integers. -/
theorem C2_cex :
    getMonthlyVals (loadfromfile ["A Normals", "Monthly", wMonRow]) "A" "mv"
      = some [1, 2, 3, 4, 5, 6, 7, 8, 9, 10, 11]
    ∧ ([1, 2, 3, 4, 5, 6, 7, 8, 9, 10, 11] : List Int).length ≠ 12 :=
  ⟨by rfl, by decide⟩

/-- C2 (amended): sentinel trimming is applied to monthly rows as well: a
13-token monthly row stores its 12 value tokens after trimming the trailing
run of `-8888` sentinels and flag-stripping, so exactly 12 integers are
stored only when the row does not end in the sentinel. -/
theorem C2_amended
    (st : ParseState) (line ty v : String) (rest : List String)
    (fm : FreqMap) (vm : VarMap) (ys : List Int)
    (hmeta : matchMeta line = none) (hcat : matchCategory line = none)
    (hfreq : matchFrequency line = none)
    (hty : st.type' = some ty) (hfr : st.frequency = some "Monthly")
    (hsplit : splitWs line = v :: rest) (hlen : rest.length = 12)
    (hfm : alookup st.normals ty = some fm)
    (hvm : alookup fm "Monthly" = some vm)
    (hys : transform_data ty (trim_from_end rest "-8888") = .ok ys) :
    processLine st line
      = .ok { st with
              variable' := some v,
              normals := aset st.normals ty (aset fm "Monthly"
                (aset vm v (NVal.monthlyRow ys))) } := by
  rw [processLine_monthly st ty line hmeta hcat hfreq hty hfr,
    monthlyStep_13 st ty line v rest fm vm ys hsplit hlen hys hfm hvm]

def wSt2 : ParseState :=
  { meta := [], normals := [("A", [("Monthly", [])])], type' := some "A",
    frequency := some "Monthly", variable' := none }

/-- Witness for C2 (amended): the 13-token row `wMonRow`, which ends in the
sentinel, stores the 11 trimmed values. -/
theorem C2_amended_witness :
    (splitWs wMonRow).length = 13
    ∧ processLine wSt2 wMonRow
      = .ok { wSt2 with
              variable' := some "mv",
              normals := aset wSt2.normals "A" (aset [("Monthly", [])] "Monthly"
                (aset [] "mv" (NVal.monthlyRow [1, 2, 3, 4, 5, 6, 7, 8, 9, 10, 11]))) } :=
  ⟨by rfl,
    C2_amended wSt2 wMonRow "A" "mv"
      ["1", "2", "3", "4", "5", "6", "7", "8", "9", "10", "11", "-8888"]
      [("Monthly", [])] [] [1, 2, 3, 4, 5, 6, 7, 8, 9, 10, 11]
      rfl rfl rfl rfl rfl (by rfl) (by rfl) rfl rfl (by rfl)⟩

/-- C3 claimed a 32-token daily row with an unrecognized month token makes
the parse fail fatally.  In the code the month membership test is part of the
row's recognition (line 120), so such a row is silently ignored; the
`unknown month` raise at line 124 is unreachable.  Here the parse succeeds
and the variable map stays empty. -/
theorem C3_cex :
    isOkE (loadfromfile ["A Normals", "Daily", wBadRow]) = true
    ∧ getFreqMap (loadfromfile ["A Normals", "Daily", wBadRow]) "A" "Daily" = some [] :=
  ⟨by rfl, by rfl⟩

/-- C3 (amended): a 32-token daily row whose first token is not one of the 12
month abbreviations is silently ignored (the state is returned unchanged);
the fatal unknown-month branch is unreachable because recognition of a
month-data row already requires month membership. -/
theorem C3_amended
    (st : ParseState) (line ty t : String) (rest : List String)
    (hmeta : matchMeta line = none) (hcat : matchCategory line = none)
    (hfreq : matchFrequency line = none)
    (hty : st.type' = some ty) (hfr : st.frequency = some "Daily")
    (hsplit : splitWs line = t :: rest) (hlen : rest.length = 31)
    (ht : t ∉ months) :
    processLine st line = .ok st := by
  rw [processLine_daily st ty line hmeta hcat hfreq hty hfr]
  simp [dailyStep, dailyStepCols, dailySecond, hsplit, hlen, ht]

/-- Witness for C3 (amended): the `FOO` row is ignored under `wSt1`. -/
theorem C3_amended_witness :
    ("FOO" ∉ months) ∧ processLine wSt1 wBadRow = .ok wSt1 :=
  ⟨by decide,
    C3_amended wSt1 wBadRow "A" "FOO" (List.replicate 31 "1")
      rfl rfl rfl rfl rfl (by rfl) (by rfl) (by decide)⟩

/-- C8: a 32-token daily month-data row processed while no variable is
established for the active category's `Daily` map makes the parse fail
fatally at that row (an unguarded lookup), and the remaining lines are never
processed. -/
theorem C8_data_without_variable
    (st : ParseState) (line ty month : String) (rest : List String)
    (hstrip : pstrip line = line)
    (hmeta : matchMeta line = none) (hcat : matchCategory line = none)
    (hfreq : matchFrequency line = none)
    (hty : st.type' = some ty) (hfr : st.frequency = some "Daily")
    (hsplit : splitWs line = month :: rest) (hm : month ∈ months)
    (hlen : rest.length = 31)
    (hnovar : ∀ (v : String) (fm : FreqMap) (vm : VarMap), st.variable' = some v →
      alookup st.normals ty = some fm → alookup fm "Daily" = some vm →
      alookup vm v = none) :
    (∃ e, processLine st line = .error e)
    ∧ ∀ more : List String, ∃ e, runLines st (line :: more) = .error e := by
  have hpd : processLine st line = storeDaily st ty month rest := by
    rw [processLine_daily st ty line hmeta hcat hfreq hty hfr,
      dailyStep_32 st ty line month rest hsplit hlen hm]
  have hcond : ¬ (month_index month < 0 ∨ 12 ≤ month_index month) := by
    obtain ⟨a, b⟩ := month_index_of_mem month hm; omega
  have herr : ∃ e, processLine st line = .error e := by
    rcases htd : transform_data ty (trim_from_end rest "-8888") with e | vals
    · exact ⟨e, by rw [hpd]; simp [storeDaily, hcond, htd]⟩
    · rcases hfm : alookup st.normals ty with _ | fm
      · exact ⟨"KeyError: " ++ ty, by rw [hpd]; simp [storeDaily, hcond, htd, getE, hfm]⟩
      · rcases hvm : alookup fm "Daily" with _ | vm
        · exact ⟨"KeyError: Daily", by rw [hpd]; simp [storeDaily, hcond, htd, getE, hfm, hvm]⟩
        · rcases hv : st.variable' with _ | v
          · exact ⟨"KeyError: None", by
              rw [hpd]; simp [storeDaily, hcond, htd, getE, hfm, hvm, hv]⟩
          · have hnone := hnovar v fm vm hv hfm hvm
            exact ⟨"KeyError: " ++ v, by
              rw [hpd]; simp [storeDaily, hcond, htd, getE, hfm, hvm, hv, hnone]⟩
  obtain ⟨e, he⟩ := herr
  refine ⟨⟨e, he⟩, fun more => ⟨e, ?_⟩⟩
  rw [runLines_cons, hstrip, he]
  rfl

/-- Witness for C8: the `FEB` month row under `wSt1` (no variable set) fails. -/
theorem C8_witness :
    wSt1.variable' = none ∧ (∃ e, processLine wSt1 wFebRow = .error e) :=
  ⟨rfl,
    (C8_data_without_variable wSt1 wFebRow "A" "FEB" (List.replicate 31 "1")
      (by rfl) rfl rfl rfl rfl rfl (by rfl) (by decide) (by rfl)
      (fun v fm vm h => by simp [wSt1] at h)).1⟩

/-- C9 claimed that re-processing a daily new-variable row for an
already-registered variable leaves the data accumulated under that variable
unchanged.  The registration itself is skipped (`if variable not in ...`),
but the row then falls through to the month-data `if` and overwrites the
named month's slot: after a second announcement row carrying different
values, slot 0 holds the new values. -/
theorem C9_cex :
    getDailySlot (loadfromfile ["A Normals", "Daily", wAnnRow]) "A" "v" 0
      = some (List.replicate 31 (1 : Int))
    ∧ getDailySlot (loadfromfile ["A Normals", "Daily", wAnnRow, wAnnRow2]) "A" "v" 0
      = some (List.replicate 31 (2 : Int))
    ∧ List.replicate 31 (2 : Int) ≠ List.replicate 31 (1 : Int) :=
  ⟨by rfl, by rfl, by decide⟩

/-- C9 (amended): re-encountering a category header for an existing Category,
or a frequency header for an existing (Category, Frequency), changes only the
parse context and leaves the accumulated data untouched (maps are initialized
once, reused, never reset).  A daily new-variable row for an
already-registered Variable does not reinitialize the 12-slot array (all
slots other than the row's month keep their values), but the row's remaining
32 tokens are consumed as a month-data row, overwriting the named month's
slot; likewise a later plain month-data row for the same month overwrites the
earlier values at that index. -/
theorem C9_amended :
    (∀ (st : ParseState) (line ty : String) (fm : FreqMap),
      matchMeta line = none → matchCategory line = some ty →
      alookup st.normals ty = some fm →
      processLine st line = .ok { st with type' := some ty })
    ∧ (∀ (st : ParseState) (line ty fr : String) (fm : FreqMap) (vm : VarMap),
      matchMeta line = none → matchCategory line = none →
      matchFrequency line = some fr → st.type' = some ty →
      alookup st.normals ty = some fm → alookup fm fr = some vm →
      processLine st line = .ok { st with frequency := some fr })
    ∧ (∀ (st : ParseState) (line ty v month : String) (vals : List String)
        (fm : FreqMap) (vm : VarMap) (arr : List (List Int)) (ys : List Int),
      matchMeta line = none → matchCategory line = none → matchFrequency line = none →
      st.type' = some ty → st.frequency = some "Daily" →
      splitWs line = v :: month :: vals → month ∈ months → vals.length = 31 →
      alookup st.normals ty = some fm → alookup fm "Daily" = some vm →
      alookup vm v = some (NVal.dailyArr arr) → arr.length = 12 →
      transform_data ty (trim_from_end vals "-8888") = .ok ys →
      processLine st line
        = .ok { st with
                variable' := some v,
                normals := aset st.normals ty (aset fm "Daily"
                  (aset vm v (NVal.dailyArr (arr.set (month_index month).toNat ys)))) }
        ∧ ∀ j : Nat, j ≠ (month_index month).toNat →
            (arr.set (month_index month).toNat ys).getD j [] = arr.getD j [])
    ∧ (∀ (st : ParseState) (line ty v month : String) (rest : List String)
        (fm : FreqMap) (vm : VarMap) (arr : List (List Int)) (ys : List Int),
      matchMeta line = none → matchCategory line = none → matchFrequency line = none →
      st.type' = some ty → st.frequency = some "Daily" →
      splitWs line = month :: rest → month ∈ months → rest.length = 31 →
      alookup st.normals ty = some fm → alookup fm "Daily" = some vm →
      st.variable' = some v → alookup vm v = some (NVal.dailyArr arr) → arr.length = 12 →
      transform_data ty (trim_from_end rest "-8888") = .ok ys →
      processLine st line
        = .ok { st with normals := aset st.normals ty (aset fm "Daily"
            (aset vm v (NVal.dailyArr (arr.set (month_index month).toNat ys)))) }) := by
  refine ⟨?_, ?_, ?_, ?_⟩
  · intro st line ty fm h1 h2 h3
    simp [processLine, h1, h2, h3]
  · intro st line ty fr fm vm h1 h2 h3 h4 h5 h6
    simp [processLine, h1, h2, h3, h4, getE, h5, h6, aset_of_alookup_eq st.normals ty fm h5]
  · intro st line ty v month vals fm vm arr ys h1 h2 h3 h4 h5 hsplit hm hvlen hfm hvm hold
      halen hys
    have hreg := registerDaily_existing st ty v fm vm (NVal.dailyArr arr) hfm hvm hold
    constructor
    · rw [processLine_daily st ty line h1 h2 h3 h4 h5,
        dailyStep_33 st _ ty line v month vals hsplit hvlen hm hreg]
      have hfm' : alookup (aset st.normals ty (aset fm "Daily" vm)) ty
          = some (aset fm "Daily" vm) := by
        rw [alookup_aset]; simp
      have hvm' : alookup (aset fm "Daily" vm) "Daily" = some vm := by
        rw [alookup_aset]; simp
      rw [storeDaily_ok { meta := st.meta, normals := aset st.normals ty (aset fm "Daily" vm), type' := st.type', frequency := st.frequency, variable' := some v } ty month v vals _ _ arr ys hm hys hfm' hvm' rfl hold halen]
      simp [aset_aset]
    · intro j hj
      rw [List.getD_eq_getElem?_getD, List.getElem?_set_ne (Ne.symm hj),
        ← List.getD_eq_getElem?_getD]
  · intro st line ty v month rest fm vm arr ys h1 h2 h3 h4 h5 hsplit hm hlen hfm hvm hv
      hold halen hys
    rw [processLine_daily st ty line h1 h2 h3 h4 h5,
      dailyStep_32 st ty line month rest hsplit hlen hm,
      storeDaily_ok st ty month v rest fm vm arr ys hm hys hfm hvm hv hold halen]

/-- Witness for C9 (amended) at concrete inputs: re-encountered category and
frequency headers leave `wSt5` data untouched; the announcement row for the
already-registered `v` stores January without resetting the array. -/
theorem C9_witness :
    (alookup wSt5.normals "A" = some wFm5)
    ∧ processLine wSt5 "A Normals" = .ok { wSt5 with type' := some "A" }
    ∧ processLine wSt5 "Daily" = .ok { wSt5 with frequency := some "Daily" }
    ∧ processLine wSt5 wAnnRow
      = .ok { wSt5 with
              variable' := some "v",
              normals := aset wSt5.normals "A" (aset wFm5 "Daily"
                (aset wVm5 "v" (NVal.dailyArr ((List.replicate 12 ([] : List Int)).set
                  (month_index "JAN").toNat (List.replicate 31 (1 : Int)))))) } :=
  ⟨rfl,
   C9_amended.1 wSt5 "A Normals" "A" wFm5 rfl (by rfl) rfl,
   C9_amended.2.1 wSt5 "Daily" "A" "Daily" wFm5 wVm5 rfl rfl (by rfl) rfl rfl rfl,
   (C9_amended.2.2.1 wSt5 wAnnRow "A" "v" "JAN" (List.replicate 31 "1") wFm5 wVm5
      (List.replicate 12 []) (List.replicate 31 (1 : Int))
      rfl rfl rfl rfl rfl (by rfl) (by decide) (by rfl) rfl rfl rfl rfl (by rfl)).1⟩

/-! ## The C10 invariant: variable maps under frequencies other than
`Daily`/`Monthly` stay empty for the whole parse -/

/-- Every variable map filed under a frequency key other than `"Daily"` and
`"Monthly"` is empty. -/
def emptyOffFreqN (ns : Normals) : Prop :=
  ∀ (cat : String) (fm : FreqMap) (fr : String) (m : VarMap),
    alookup ns cat = some fm → fr ≠ "Daily" → fr ≠ "Monthly" →
    alookup fm fr = some m → m = []

theorem emptyOffFreqN_nil : emptyOffFreqN [] := by
  intro cat fm fr m hcat
  simp [alookup] at hcat

theorem emptyOffFreqN_aset_nil (ns : Normals) (ty : String) (h : emptyOffFreqN ns) :
    emptyOffFreqN (aset ns ty []) := by
  intro cat fm fr m hcat hd hmo hfr
  rw [alookup_aset] at hcat
  by_cases hc : cat = ty
  · rw [if_pos hc] at hcat
    injection hcat with h1
    subst h1
    simp [alookup] at hfr
  · rw [if_neg hc] at hcat
    exact h cat fm fr m hcat hd hmo hfr

theorem emptyOffFreqN_update (ns : Normals) (ty : String) (fm fm' : FreqMap)
    (h : emptyOffFreqN ns) (hfm : alookup ns ty = some fm)
    (hpres : ∀ fr m, fr ≠ "Daily" → fr ≠ "Monthly" → alookup fm' fr = some m →
      alookup fm fr = some m ∨ m = []) :
    emptyOffFreqN (aset ns ty fm') := by
  intro cat fmc fr m hcat hd hmo hfr
  rw [alookup_aset] at hcat
  by_cases hc : cat = ty
  · rw [if_pos hc] at hcat
    injection hcat with h1
    subst h1
    rcases hpres fr m hd hmo hfr with hin | hnil
    · exact h ty fm fr m hfm hd hmo hin
    · exact hnil
  · rw [if_neg hc] at hcat
    exact h cat fmc fr m hcat hd hmo hfr

/-- Writes under the key `"Daily"` or `"Monthly"` preserve the invariant. -/
theorem emptyOffFreqN_update_freqkey (ns : Normals) (ty K : String) (fm : FreqMap)
    (vm' : VarMap) (hK : K = "Daily" ∨ K = "Monthly")
    (h : emptyOffFreqN ns) (hfm : alookup ns ty = some fm) :
    emptyOffFreqN (aset ns ty (aset fm K vm')) := by
  refine emptyOffFreqN_update ns ty fm _ h hfm ?_
  intro fr m hd hmo hfr
  left
  rw [alookup_aset] at hfr
  rcases hK with rfl | rfl
  · rwa [if_neg hd] at hfr
  · rwa [if_neg hmo] at hfr

theorem registerDaily_pres (st st' : ParseState) (ty v : String)
    (hok : registerDaily st ty v = .ok st') (h : emptyOffFreqN st.normals) :
    emptyOffFreqN st'.normals := by
  rcases hfm : alookup st.normals ty with _ | fm
  · simp [registerDaily, getE, hfm] at hok
  · rcases hvm : alookup fm "Daily" with _ | vm
    · simp [registerDaily, getE, hfm, hvm] at hok
    · simp [registerDaily, getE, hfm, hvm] at hok
      subst hok
      exact emptyOffFreqN_update_freqkey st.normals ty "Daily" fm _ (Or.inl rfl) h hfm

theorem storeDaily_pres (st st' : ParseState) (ty month : String) (rest : List String)
    (hok : storeDaily st ty month rest = .ok st') (h : emptyOffFreqN st.normals) :
    emptyOffFreqN st'.normals := by
  by_cases hg : month_index month < 0 ∨ 12 ≤ month_index month
  · simp [storeDaily, hg] at hok
  · rcases htd : transform_data ty (trim_from_end rest "-8888") with e | vals
    · simp [storeDaily, hg, htd] at hok
    · rcases hfm : alookup st.normals ty with _ | fm
      · simp [storeDaily, hg, htd, getE, hfm] at hok
      · rcases hvm : alookup fm "Daily" with _ | vm
        · simp [storeDaily, hg, htd, getE, hfm, hvm] at hok
        · rcases hv : st.variable' with _ | v
          · simp [storeDaily, hg, htd, getE, hfm, hvm, hv] at hok
          · rcases harr : alookup vm v with _ | w
            · simp [storeDaily, hg, htd, getE, hfm, hvm, hv, harr] at hok
            · rcases w with arr | flat
              · by_cases hlt : (month_index month).toNat < arr.length
                · simp [storeDaily, hg, htd, getE, hfm, hvm, hv, harr, hlt] at hok
                  subst hok
                  exact emptyOffFreqN_update_freqkey st.normals ty "Daily" fm _
                    (Or.inl rfl) h hfm
                · simp [storeDaily, hg, htd, getE, hfm, hvm, hv, harr, hlt] at hok
              · simp [storeDaily, hg, htd, getE, hfm, hvm, hv, harr] at hok

theorem dailySecond_pres (st1 st' : ParseState) (ty : String) (cols : List String)
    (hok : dailySecond st1 ty cols = .ok st') (h : emptyOffFreqN st1.normals) :
    emptyOffFreqN st'.normals := by
  rcases cols with _ | ⟨month, rest⟩
  · rw [dailySecond] at hok
    injection hok with h3
    subst h3
    exact h
  · rw [dailySecond] at hok
    by_cases h2 : (month :: rest).length = 32 ∧ (month :: rest).getD 0 "" ∈ months
    · rw [if_pos h2] at hok
      exact storeDaily_pres st1 st' ty month rest hok h
    · rw [if_neg h2] at hok
      injection hok with h3
      subst h3
      exact h

theorem dailyStepCols_pres (st st' : ParseState) (ty : String) (cols : List String)
    (hok : dailyStepCols st ty cols = .ok st') (h : emptyOffFreqN st.normals) :
    emptyOffFreqN st'.normals := by
  rcases cols with _ | ⟨v, restCols⟩
  · rw [dailyStepCols] at hok
    exact dailySecond_pres st st' ty [] hok h
  · rw [dailyStepCols] at hok
    by_cases h1 : (v :: restCols).length = 33 ∧ (v :: restCols).getD 1 "" ∈ months
    · rw [if_pos h1] at hok
      rcases hreg : registerDaily st ty v with e | st1 <;> rw [hreg] at hok
      · exact Except.noConfusion hok
      · exact dailySecond_pres st1 st' ty restCols hok
          (registerDaily_pres st st1 ty v hreg h)
    · rw [if_neg h1] at hok
      exact dailySecond_pres st st' ty (v :: restCols) hok h

theorem monthlyStepCols_pres (st st' : ParseState) (ty : String) (cols : List String)
    (hok : monthlyStepCols st ty cols = .ok st') (h : emptyOffFreqN st.normals) :
    emptyOffFreqN st'.normals := by
  rcases cols with _ | ⟨v, rest⟩
  · rw [monthlyStepCols] at hok
    injection hok with h3
    subst h3
    exact h
  · rw [monthlyStepCols] at hok
    by_cases h1 : (v :: rest).length = 13
    · rw [if_pos h1] at hok
      rcases htd : transform_data ty (trim_from_end rest "-8888") with e | vals
      · simp [htd] at hok
      · rcases hfm : alookup st.normals ty with _ | fm
        · simp [htd, getE, hfm] at hok
        · rcases hvm : alookup fm "Monthly" with _ | vm
          · simp [htd, getE, hfm, hvm] at hok
          · simp [htd, getE, hfm, hvm] at hok
            subst hok
            exact emptyOffFreqN_update_freqkey st.normals ty "Monthly" fm _
              (Or.inr rfl) h hfm
    · rw [if_neg h1] at hok
      injection hok with h3
      subst h3
      exact h

theorem processLine_meta_red (st : ParseState) (line k v : String)
    (h1 : matchMeta line = some (k, v)) :
    processLine st line = .ok { st with meta := aset st.meta k v } := by
  simp [processLine, h1]

theorem processLine_cat_red (st : ParseState) (line ty : String)
    (h1 : matchMeta line = none) (h2 : matchCategory line = some ty) :
    processLine st line
      = .ok { st with
              type' := some ty,
              normals := if (alookup st.normals ty).isSome then st.normals
                         else aset st.normals ty [] } := by
  simp [processLine, h1, h2]

theorem processLine_freq_nocat (st : ParseState) (line fr : String)
    (h1 : matchMeta line = none) (h2 : matchCategory line = none)
    (h3 : matchFrequency line = some fr) (h4 : st.type' = none) :
    processLine st line
      = .error ("encountered new frequency " ++ fr ++ " not in any normals type") := by
  simp [processLine, h1, h2, h3, h4]

theorem processLine_freq_keyerr (st : ParseState) (line fr ty : String)
    (h1 : matchMeta line = none) (h2 : matchCategory line = none)
    (h3 : matchFrequency line = some fr) (h4 : st.type' = some ty)
    (hfm : alookup st.normals ty = none) :
    processLine st line = .error ("KeyError: " ++ ty) := by
  simp [processLine, h1, h2, h3, h4, getE, hfm]

theorem processLine_freq_red (st : ParseState) (line fr ty : String) (fm : FreqMap)
    (h1 : matchMeta line = none) (h2 : matchCategory line = none)
    (h3 : matchFrequency line = some fr) (h4 : st.type' = some ty)
    (hfm : alookup st.normals ty = some fm) :
    processLine st line
      = .ok { st with
              frequency := some fr,
              normals := aset st.normals ty (if (alookup fm fr).isSome then fm
                         else aset fm fr []) } := by
  simp [processLine, h1, h2, h3, h4, getE, hfm]

theorem processLine_skip (st : ParseState) (line : String)
    (h1 : matchMeta line = none) (h2 : matchCategory line = none)
    (h3 : matchFrequency line = none) (h4 : st.type' = none) :
    processLine st line = .ok st := by
  simp [processLine, h1, h2, h3, h4]

theorem processLine_pres (st st' : ParseState) (line : String)
    (hok : processLine st line = .ok st') (h : emptyOffFreqN st.normals) :
    emptyOffFreqN st'.normals := by
  rcases h1 : matchMeta line with _ | ⟨k, v⟩
  · rcases h2 : matchCategory line with _ | ty
    · rcases h3 : matchFrequency line with _ | fr
      · rcases h4 : st.type' with _ | ty
        · rw [processLine_skip st line h1 h2 h3 h4] at hok
          injection hok with h5
          subst h5
          exact h
        · rw [processLine_data st ty line h1 h2 h3 h4] at hok
          by_cases h5 : st.frequency = some "Daily"
          · rw [if_pos h5] at hok
            exact dailyStepCols_pres st st' ty (splitWs line) hok h
          · rw [if_neg h5] at hok
            by_cases h6 : st.frequency = some "Monthly"
            · rw [if_pos h6] at hok
              exact monthlyStepCols_pres st st' ty (splitWs line) hok h
            · rw [if_neg h6] at hok
              injection hok with h7
              subst h7
              exact h
      · rcases h4 : st.type' with _ | ty
        · rw [processLine_freq_nocat st line fr h1 h2 h3 h4] at hok
          exact Except.noConfusion hok
        · rcases hfm : alookup st.normals ty with _ | fm
          · rw [processLine_freq_keyerr st line fr ty h1 h2 h3 h4 hfm] at hok
            exact Except.noConfusion hok
          · rw [processLine_freq_red st line fr ty fm h1 h2 h3 h4 hfm] at hok
            injection hok with h5
            subst h5
            rcases hcf : alookup fm fr with _ | vm
            · have hnew : emptyOffFreqN (aset st.normals ty (aset fm fr [])) := by
                refine emptyOffFreqN_update st.normals ty fm _ h hfm ?_
                intro fr' m hd hmo hfr'
                rw [alookup_aset] at hfr'
                by_cases hq : fr' = fr
                · rw [if_pos hq] at hfr'
                  injection hfr' with h6
                  exact Or.inr h6.symm
                · rw [if_neg hq] at hfr'
                  exact Or.inl hfr'
              simpa [hcf] using hnew
            · have hkeep : emptyOffFreqN (aset st.normals ty fm) := by
                rw [aset_of_alookup_eq st.normals ty fm hfm]
                exact h
              simpa [hcf] using hkeep
    · rw [processLine_cat_red st line ty h1 h2] at hok
      injection hok with h5
      subst h5
      rcases hcf : alookup st.normals ty with _ | fm
      · have hnew : emptyOffFreqN (aset st.normals ty []) :=
          emptyOffFreqN_aset_nil st.normals ty h
        simpa [hcf] using hnew
      · simpa [hcf] using h
  · rw [processLine_meta_red st line k v h1] at hok
    injection hok with h5
    subst h5
    exact h

theorem runLines_pres (lines : List String) (st st' : ParseState)
    (hok : runLines st lines = .ok st') (h : emptyOffFreqN st.normals) :
    emptyOffFreqN st'.normals := by
  induction lines generalizing st with
  | nil =>
    rw [runLines_nil] at hok
    injection hok with h1
    subst h1
    exact h
  | cons l rest ih =>
    rw [runLines_cons] at hok
    rcases hstep : processLine st (pstrip l) with e | st1 <;> rw [hstep] at hok
    · simp at hok
    · simp only [exceptBind_ok] at hok
      exact ih st1 hok (processLine_pres st st1 (pstrip l) hstep h)

/-- C10: under a frequency whose header word is neither `Daily` nor `Monthly`
(e.g. `Hourly`), every data row is silently ignored — the whole parse state,
including the current variable, is returned unchanged — and in any successful
parse every variable map registered under such a frequency key is empty at
the end. -/
theorem C10_other_freq_ignored :
    (∀ (st : ParseState) (line ty f : String),
      matchMeta line = none → matchCategory line = none → matchFrequency line = none →
      st.type' = some ty → st.frequency = some f → f ≠ "Daily" → f ≠ "Monthly" →
      processLine st line = .ok st)
    ∧ (∀ (lines : List String) (st' : ParseState),
      loadfromfile lines = .ok st' → emptyOffFreqN st'.normals) := by
  constructor
  · intro st line ty f h1 h2 h3 h4 h5 h6 h7
    rw [processLine_data st ty line h1 h2 h3 h4,
      if_neg (by simp [h5, h6]), if_neg (by simp [h5, h7])]
  · intro lines st' hok
    exact runLines_pres lines initState st' hok emptyOffFreqN_nil

def wSt10 : ParseState :=
  { meta := [], normals := [("A", [("Hourly", [])])], type' := some "A",
    frequency := some "Hourly", variable' := none }

/-- Witness for C10: a would-be data row under `Hourly` is ignored, and the
parse of a small `Hourly` file keeps the `Hourly` map empty. -/
theorem C10_witness :
    processLine wSt10 wAnnRow = .ok wSt10 ∧ emptyOffFreqN wSt10.normals :=
  ⟨C10_other_freq_ignored.1 wSt10 wAnnRow "A" "Hourly" (by rfl) (by rfl) (by rfl) rfl rfl
      (by decide) (by decide),
   C10_other_freq_ignored.2 ["A Normals", "Hourly", wAnnRow] wSt10 (by rfl)⟩

end PyNormals
